import Mathlib

/-
Verification of the job-application email checker
(src/simple_email_checker.py) against its specification.

The Python source is shallowly embedded below.  Python strings are Lean
`String`s; Python dictionaries that stand for Gmail API JSON objects are
embedded as structures; the external Gmail RPCs (search, fetch), the
RFC-2822 date parser from the `email.utils` library, and the optional
BeautifulSoup HTML-to-text converter are parameters of the embedding,
gathered in `GmailEnv`.  Fallible external calls return `Except`.
-/

/-- Lower-casing of one character as Python `str.lower` acts on the
alphabets this program manipulates: ASCII letters and the Latin-1
letters (covering the German umlauts of the keyword lists). -/
def pyLowerChar (c : Char) : Char :=
  if 65 ≤ c.toNat ∧ c.toNat ≤ 90 then Char.ofNat (c.toNat + 32)
  else if 192 ≤ c.toNat ∧ c.toNat ≤ 222 ∧ c.toNat ≠ 215 then Char.ofNat (c.toNat + 32)
  else c

/-- Python `str.lower`. -/
def pyLower (s : String) : String := ⟨s.data.map pyLowerChar⟩

/-- the ASCII whitespace characters removed by Python `str.strip`. -/
def isPySpace (c : Char) : Bool :=
  c = ' ' || c = '\t' || c = '\n' || c = '\r' || c.toNat = 11 || c.toNat = 12

/-- Python `str.strip`: drop leading and trailing whitespace. -/
def pyStrip (s : String) : String :=
  ⟨((s.data.dropWhile isPySpace).reverse.dropWhile isPySpace).reverse⟩

/-- substring containment on character lists: `contains_sub hay pat` is
true when `pat` occurs contiguously inside `hay` (Python `pat in hay`). -/
def contains_sub : List Char → List Char → Bool
  | [], pat => pat.isEmpty
  | c :: rest, pat => pat.isPrefixOf (c :: rest) || contains_sub rest pat

/-- Python `needle in hay` on strings. -/
def pyContains (hay needle : String) : Bool := contains_sub hay.data needle.data

/-- one pass of Python `str.replace`: scan left to right, replacing each
non-overlapping occurrence of `pat` by `rep`.  The `fuel` argument makes
the recursion structural; every step consumes at least one character of
the list when `pat` is non-empty, so `fuel = length` (as supplied by
`pyReplace`) always suffices and the fuel-exhausted branch is dead for
the non-empty patterns the program uses. -/
def pyReplaceFuel (pat rep : List Char) : Nat → List Char → List Char
  | _, [] => []
  | 0, l => l
  | fuel + 1, c :: rest =>
    if pat ≠ [] ∧ pat.isPrefixOf (c :: rest) then
      rep ++ pyReplaceFuel pat rep fuel (List.drop pat.length (c :: rest))
    else
      c :: pyReplaceFuel pat rep fuel rest

/-- Python `s.replace(old, new)` for non-empty `old`. -/
def pyReplace (s old new : String) : String :=
  ⟨pyReplaceFuel old.data new.data s.data.length s.data⟩

/-- value of one base64 alphabet character (urlsafe variant; Python
`base64.urlsafe_b64decode` also still accepts the standard `+` and `/`),
`none` for characters outside the alphabet, which Python discards. -/
def b64Char (c : Char) : Option Nat :=
  if 'A' ≤ c ∧ c ≤ 'Z' then some (c.toNat - 65)
  else if 'a' ≤ c ∧ c ≤ 'z' then some (c.toNat - 97 + 26)
  else if '0' ≤ c ∧ c ≤ '9' then some (c.toNat - 48 + 52)
  else if c = '-' ∨ c = '+' then some 62
  else if c = '_' ∨ c = '/' then some 63
  else none

/-- the 6-bit groups of a base64 text: data ends at the first padding
`=`, characters outside the alphabet are discarded. -/
def b64Sextets (s : String) : List Nat :=
  (s.data.takeWhile (fun c => c ≠ '=')).filterMap b64Char

/-- reassemble 8-bit bytes from 6-bit groups, as `base64.b64decode`
does; a trailing group of 2 or 3 sextets yields 1 or 2 bytes. -/
def sextetsToBytes : List Nat → List Nat
  | a :: b :: c :: d :: rest =>
    (a * 4 + b / 16) :: ((b % 16) * 16 + c / 4) :: ((c % 4) * 64 + d) :: sextetsToBytes rest
  | [a, b] => [a * 4 + b / 16]
  | [a, b, c] => [a * 4 + b / 16, (b % 16) * 16 + c / 4]
  | _ => []

/-- incremental UTF-8 decoder with U+FFFD replacement of invalid
sequences (Python `bytes.decode("utf-8", errors="replace")`):
`pending` continuation bytes are still expected for the partially
accumulated code point `acc`. -/
def utf8Aux (pending acc : Nat) : List Nat → List Char
  | [] => if pending = 0 then [] else [Char.ofNat 0xFFFD]
  | b :: rest =>
    if pending = 0 then
      if b < 0x80 then Char.ofNat b :: utf8Aux 0 0 rest
      else if 0xC2 ≤ b ∧ b ≤ 0xDF then utf8Aux 1 (b % 0x20) rest
      else if 0xE0 ≤ b ∧ b ≤ 0xEF then utf8Aux 2 (b % 0x10) rest
      else if 0xF0 ≤ b ∧ b ≤ 0xF4 then utf8Aux 3 (b % 0x08) rest
      else Char.ofNat 0xFFFD :: utf8Aux 0 0 rest
    else
      if 0x80 ≤ b ∧ b ≤ 0xBF then
        let acc2 := acc * 64 + b % 64
        if pending = 1 then
          (if acc2 < 0x110000 ∧ ¬ (0xD800 ≤ acc2 ∧ acc2 ≤ 0xDFFF) then Char.ofNat acc2
           else Char.ofNat 0xFFFD) :: utf8Aux 0 0 rest
        else utf8Aux (pending - 1) acc2 rest
      else Char.ofNat 0xFFFD :: utf8Aux 0 0 rest

/-- Python `base64.urlsafe_b64decode(data).decode("utf-8", errors="replace")`,
the decoding step the source applies to every body payload. -/
def decodeData (data : String) : String :=
  ⟨utf8Aux 0 0 (sextetsToBytes (b64Sextets data))⟩

/-- submission keyword list of `categorize_email` (source lines 246-255). -/
def submission_keywords : List String := [
  "application received", "thank you for applying", "received your application",
  "successfully submitted", "confirm receipt", "has been received", "application confirmation",
  "thank you for your interest", "thank you for submitting", "we\x27ve received your application",
  "bewerbung eingegangen", "vielen dank für ihre bewerbung", "bewerbung erhalten",
  "erfolgreich eingereicht", "eingang bestätigen", "ist eingegangen",
  "bewerbungsbestätigung", "vielen dank für ihr interesse", "haben ihre bewerbung erhalten",
  "werden deine unterlagen prüfen"]

/-- rejection keyword list of `categorize_email` (source lines 257-267). -/
def rejection_keywords : List String := [
  "regret to inform", "unable to proceed", "not moving forward", "we have decided",
  "unfortunately", "not selected", "other candidates", "not successful",
  "does not match", "position has been filled", "no longer available", "we decided to pursue",
  "leider", "bedauern", "nicht weiterverfolgen", "nicht entspricht",
  "andere kandidaten", "nicht erfolgreich", "nicht ausgewählt",
  "position wurde besetzt", "nicht mehr verfügbar", "nicht weiterkommen",
  "müssen wir ihnen mitteilen", "entschieden haben"]

/-- interview keyword list of `categorize_email` (source lines 269-277). -/
def interview_keywords : List String := [
  "interview", "would like to invite", "next steps", "meet with", "discussion",
  "schedule a call", "available for a", "assessment", "phone screening", "video call",
  "vorstellungsgespräch", "einladen", "nächste schritte", "termin vereinbaren",
  "gespräch", "telefonat", "verfügbar für ein", "assessment", "telefoninterview",
  "videoanruf", "kennenlernen"]

/-- the source scans a keyword list, returning on the first keyword
contained in the lower-cased body; the loop succeeds exactly when some
keyword of the list occurs. -/
def find_keyword (body_lower : String) (kws : List String) : Bool :=
  kws.any (fun kw => pyContains body_lower kw)

/-- `categorize_email` (source lines 227-312): empty body short-circuits
to Other; otherwise keyword groups are tried on the lower-cased body in
the order submission, interview, rejection, then the two compound
fallbacks, first match deciding the category. -/
def categorize_email (email_body company_name : String) : String :=
  if email_body = "" then "Other"
  else
    let email_body_lower := pyLower email_body
    if find_keyword email_body_lower submission_keywords then "Application Submitted"
    else if find_keyword email_body_lower interview_keywords then "Interview Request"
    else if find_keyword email_body_lower rejection_keywords then "Application Rejected"
    else if (pyContains email_body_lower "thank" ∧ pyContains email_body_lower "application") ∨
            (pyContains email_body_lower "danke" ∧ pyContains email_body_lower "bewerbung") then
      "Application Submitted"
    else if pyContains email_body_lower (pyLower company_name) ∧
            pyContains email_body_lower "application" then "Application Related"
    else "Other"

/-- a node of the Gmail message-part tree: `mimeType` (missing key
modeled as the default `""` the source supplies), `bodyData` = the
base64url payload when the dictionary path `body.data` exists, and
`children` = the value of the `parts` key when that key is present
(`none` models an absent key, distinct from an empty list). -/
inductive MessagePart : Type where
  | mk (mimeType : String) (bodyData : Option String) (children : Option (List MessagePart))

/-- mime type of a part. -/
def MessagePart.mimeType : MessagePart → String
  | .mk m _ _ => m

/-- payload of a part. -/
def MessagePart.bodyData : MessagePart → Option String
  | .mk _ b _ => b

/-- children of a part. -/
def MessagePart.children : MessagePart → Option (List MessagePart)
  | .mk _ _ c => c

mutual

/-- contribution of a single part inside the loop of `process_parts`
(source lines 324-339): a decoded `text/plain` payload goes to the
plain buffer, a decoded `text/html` payload to the HTML buffer, and
only otherwise (elif) a part carrying a `parts` key is recursed into. -/
def process_one : MessagePart → String × String
  | .mk mime bd children =>
    if mime = "text/plain" ∧ bd.isSome then (decodeData (bd.getD ""), "")
    else if mime = "text/html" ∧ bd.isSome then ("", decodeData (bd.getD ""))
    else
      match children with
      | some ps => process_parts ps
      | none => ("", "")

/-- `process_parts` (source lines 319-341): fold the loop body over the
list of parts, concatenating both buffers in traversal order. -/
def process_parts : List MessagePart → String × String
  | [] => ("", "")
  | p :: rest =>
    ((process_one p).1 ++ (process_parts rest).1,
     (process_one p).2 ++ (process_parts rest).2)

end

/-- buffers accumulated by `extract_email_content` before resolution
(source lines 108-125): a payload with a `parts` key is handed to
`process_parts`; otherwise a single-part message with a truthy
`body.data` contributes to the buffer selected by its mime type. -/
def payload_buffers (payload : MessagePart) : String × String :=
  match payload.children with
  | some ps => process_parts ps
  | none =>
    match payload.bodyData with
    | some data =>
      if data ≠ "" then
        if payload.mimeType = "text/plain" then (decodeData data, "")
        else if payload.mimeType = "text/html" then ("", decodeData data)
        else ("", "")
      else ("", "")
    | none => ("", "")

/-- final body resolution of `extract_email_content` (source lines
127-145).  The BeautifulSoup HTML-to-text conversion is an external
library, passed in as `htmlStrip`; `none` models the ImportError branch
in which BeautifulSoup is not installed. -/
def resolve_body (htmlStrip : Option (String → String)) (plain_text html_content : String) : String :=
  if plain_text ≠ "" then plain_text
  else if html_content ≠ "" then
    match htmlStrip with
    | some strip => strip html_content
    | none => "[HTML Email - Install BeautifulSoup to extract text content]"
  else ""

/-- first header with the given name, with the source's default
(the generator expressions of source lines 84-86). -/
def header_value (headers : List (String × String)) (nm dflt : String) : String :=
  match headers.find? (fun h => h.1 = nm) with
  | some h => h.2
  | none => dflt

/-- a raw Gmail message record as fetched with `format=full`:
the header name/value pairs and the payload part tree. -/
structure RawMessage where
  headers : List (String × String)
  payload : MessagePart

/-- the dictionary built by `extract_email_content` (source lines
158-165). -/
structure EmailData where
  subject : String
  sender : String
  date : Option Int
  body : String
  html : String
  category : String
deriving DecidableEq

/-- the external collaborators of the program: the Gmail search and
fetch RPCs (fallible, `Except` models a raised HttpError or fetch
exception), the `email.utils` RFC-2822 date parser (`none` models a
parse failure), and the optional BeautifulSoup HTML stripper. -/
structure GmailEnv where
  search : String → Except String (List String)
  fetchMsg : String → Except String RawMessage
  parseDate : String → Option Int
  htmlStrip : Option (String → String)

/-- `extract_email_content` (source lines 76-175): on any fetch
exception the message short-circuits into the fixed error record of
lines 168-175; otherwise headers, date, body and category are computed. -/
def extract_email_content (env : GmailEnv) (msg_id company_name : String) : EmailData :=
  match env.fetchMsg msg_id with
  | .error e =>
    { subject := "Error retrieving subject", sender := "Error retrieving sender",
      date := none, body := "Error retrieving body: " ++ e, html := "",
      category := "Error" }
  | .ok message =>
    let subject := header_value message.headers "Subject" "No Subject"
    let sender := header_value message.headers "From" "Unknown Sender"
    let date_str := header_value message.headers "Date" ""
    let date := if date_str ≠ "" then env.parseDate date_str else none
    let buffers := payload_buffers message.payload
    let body := resolve_body env.htmlStrip buffers.1 buffers.2
    { subject := subject, sender := sender, date := date, body := body,
      html := buffers.2, category := categorize_email body company_name }

/-- the corporate suffixes stripped from a company name before
searching (source line 402). -/
def corporate_suffixes : List String :=
  [" inc", " llc", " corp", " corporation", " ltd", " limited", " group"]

/-- the search term built from a company name (source lines 399-403):
lower-case, strip, then replace away each suffix in list order. -/
def clean_search_term (company : String) : String :=
  corporate_suffixes.foldl (fun acc suffix => pyReplace acc suffix "")
    (pyStrip (pyLower company))

/-- the primary query of source line 406. -/
def primary_query (search_term date_str : String) : String :=
  "from:*" ++ search_term ++ "* after:" ++ date_str

/-- the fallback query of source line 434. -/
def fallback_query (search_term date_str : String) : String :=
  "subject:*" ++ search_term ++ "* after:" ++ date_str

/-- the search logic of `check_emails_for_companies` for one company
(source lines 405-458): issue the primary `from:` query; only when it
succeeds with an empty id list, issue the `subject:` fallback with the
same date bound.  Returns the queries issued in order together with the
outcome supplying the message ids (an `HttpError` of either call is
propagated, which the caller turns into skipping the company). -/
def locate_messages (search : String → Except String (List String))
    (search_term date_str : String) : List String × Except String (List String) :=
  let q1 := primary_query search_term date_str
  match search q1 with
  | .error e => ([q1], .error e)
  | .ok messages =>
    if messages ≠ [] then ([q1], .ok messages)
    else
      let q2 := fallback_query search_term date_str
      ([q1, q2], search q2)

/-- the per-email dictionary stored in the result mapping (source lines
422-428): the `html` field of `extract_email_content` is dropped. -/
structure StoredEmail where
  subject : String
  sender : String
  date : Option Int
  body : String
  category : String
deriving DecidableEq

/-- copy of source lines 422-428. -/
def store_email (e : EmailData) : StoredEmail :=
  { subject := e.subject, sender := e.sender, date := e.date,
    body := e.body, category := e.category }

/-- the work of `check_emails_for_companies` for one company (source
lines 396-461): locate ids, and when at least one was found, enrich the
first 5 of them; `none` means the company gets no entry (no ids found,
or an HttpError was caught). -/
def check_one_company (env : GmailEnv) (date_str company : String) :
    Option (List StoredEmail) :=
  match (locate_messages env.search (clean_search_term company) date_str).2 with
  | .error _ => none
  | .ok ids =>
    if ids = [] then none
    else some ((ids.take 5).map (fun msg_id =>
      store_email (extract_email_content env msg_id company)))

/-- `check_emails_for_companies` (source lines 387-463).  The result
dictionary is modeled as an association list in insertion order; the
run date string (computed once from the clock, an external input) is
the `date_str` parameter. -/
def check_emails_for_companies (env : GmailEnv) (date_str : String)
    (companies : List String) : List (String × List StoredEmail) :=
  companies.filterMap (fun company =>
    (check_one_company env date_str company).map (fun details => (company, details)))

/-- digits of a decimal numeral. -/
def digitsToNat (l : List Char) : Option Nat :=
  if l ≠ [] ∧ l.all (fun c => c.isDigit) then
    some (l.foldl (fun acc c => acc * 10 + (c.toNat - 48)) 0)
  else none

/-- Python `int(s)` on console input: surrounding whitespace is
ignored, an optional sign precedes the digits, anything else raises the
ValueError the review loop catches (`none`). -/
def pyToInt (s : String) : Option Int :=
  match (pyStrip s).data with
  | '-' :: rest => (digitsToNat rest).map (fun n => -(n : Int))
  | '+' :: rest => (digitsToNat rest).map (fun n => (n : Int))
  | l => (digitsToNat l).map (fun n => (n : Int))

/-- the fixed category menu of `manual_category_review`
(source line 204). -/
def review_categories : List String :=
  ["Application Submitted", "Application Rejected", "Interview Request",
   "Application Related", "Other"]

/-- the inner re-prompt loop of `manual_category_review` (source lines
209-219): consume operator inputs until one parses as an in-range
number, then return the selected category; exhausting the input stream
models the EOFError `input()` would raise. -/
def pick_category_loop : List String → Except String (String × List String)
  | [] => .error "EOFError"
  | tok :: rest =>
    match pyToInt tok with
    | none => pick_category_loop rest
    | some n =>
      if 1 ≤ n ∧ n ≤ (review_categories.length : Int) then
        .ok (review_categories.getD (n - 1).toNat "", rest)
      else pick_category_loop rest

/-- the outer confirm loop of `manual_category_review` for one email
(source lines 197-222): empty input or `y` keeps the category, `n`
enters the category menu, anything else re-prompts. -/
def review_email_loop (email : StoredEmail) : List String → Except String (StoredEmail × List String)
  | [] => .error "EOFError"
  | tok :: rest =>
    let choice := pyLower (pyStrip tok)
    if choice = "" ∨ choice = "y" then .ok (email, rest)
    else if choice = "n" then
      match pick_category_loop rest with
      | .error e => .error e
      | .ok (cat, rest2) => .ok ({ email with category := cat }, rest2)
    else review_email_loop email rest

/-- review of one company's email list, threading the input stream. -/
def review_emails : List StoredEmail → List String → Except String (List StoredEmail × List String)
  | [], inputs => .ok ([], inputs)
  | e :: es, inputs =>
    match review_email_loop e inputs with
    | .error err => .error err
    | .ok (e2, inputs2) =>
      match review_emails es inputs2 with
      | .error err => .error err
      | .ok (es2, inputs3) => .ok (e2 :: es2, inputs3)

/-- `manual_category_review` (source lines 177-225), with the operator
console modeled as a list of input lines; a run that exhausts the
inputs is the EOFError crash, every completed run returns the updated
result mapping. -/
def manual_category_review (company_emails : List (String × List StoredEmail))
    (inputs : List String) :
    Except String (List (String × List StoredEmail) × List String) :=
  match company_emails with
  | [] => .ok ([], inputs)
  | (company, emails) :: rest =>
    match review_emails emails inputs with
    | .error err => .error err
    | .ok (emails2, inputs2) =>
      match manual_category_review rest inputs2 with
      | .error err => .error err
      | .ok (rest2, inputs3) => .ok ((company, emails2) :: rest2, inputs3)

/-- the counter dictionary of `print_results` before the loop
(source lines 478-485). -/
def initial_category_counts : List (String × Nat) :=
  [("Application Submitted", 0), ("Application Rejected", 0), ("Interview Request", 0),
   ("Application Related", 0), ("Other", 0), ("Error", 0)]

/-- one update of the counter dictionary (source lines 490-494):
increment the entry when the key exists, otherwise insert it with
count 1 (Python dicts keep insertion order, so the new key goes last). -/
def bump_count : List (String × Nat) → String → List (String × Nat)
  | [], category => [(category, 1)]
  | p :: rest, category =>
    if p.1 = category then (p.1, p.2 + 1) :: rest
    else p :: bump_count rest category

/-- the category-summary computation of `print_results` (source lines
477-494), over the list of `category` field values of all messages
(`none` models a dictionary missing the key, which `get` defaults to
Other). -/
def count_categories (cats : List (Option String)) : List (String × Nat) :=
  cats.foldl (fun counts oc => bump_count counts (oc.getD "Other")) initial_category_counts

/-- the summary `print_results` prints for a result mapping. -/
def summary_counts (company_emails : List (String × List StoredEmail)) :
    List (String × Nat) :=
  count_categories ((company_emails.map Prod.snd).flatten.map (fun e => some e.category))

/-- dictionary lookup on the counter association list. -/
def lookup_count : List (String × Nat) → String → Option Nat
  | [], _ => none
  | p :: rest, c => if p.1 = c then some p.2 else lookup_count rest c

/-- sum of all counters. -/
def total_count (counts : List (String × Nat)) : Nat :=
  (counts.map Prod.snd).sum

/-- the category each message resolves to in the summary loop:
`email.get("category", "Other")`. -/
def resolved_categories (cats : List (Option String)) : List String :=
  cats.map (fun oc => oc.getD "Other")

/-- a concrete backend for the C4 witness: the primary query for acme
finds nothing, any other query finds one message. -/
def search_no_primary : String → Except String (List String) :=
  fun q => if q = primary_query "acme" "2025/01/01" then .ok [] else .ok ["m7"]

/-- the environment of the C6 and C7 witnesses: the primary query for
acme finds ids, every fetch raises. -/
def env_fetch_fail : GmailEnv :=
  { search := fun q =>
      if q = primary_query "acme" "2025/01/01" then .ok ["m1", "m2", "m3", "m4", "m5", "m6"]
      else .ok [],
    fetchMsg := fun _ => .error "boom",
    parseDate := fun _ => none,
    htmlStrip := none }

/-- the concrete entry of the C7 witness: acme with its first five
located messages enriched. -/
def c7_entry : String × List StoredEmail :=
  ("acme", ((["m1", "m2", "m3", "m4", "m5", "m6"] : List String).take 5).map (fun msg_id =>
    store_email (extract_email_content env_fetch_fail msg_id "acme")))

/-- the result mapping before the C8 witness review. -/
def c8_before : List (String × List StoredEmail) :=
  [("acme", [⟨"s1", "f1", none, "b1", "Other"⟩, ⟨"s2", "f2", none, "b2", "Error"⟩])]

/-- the result mapping after the C8 witness review: the operator
rejects the first category and selects number 2, then confirms the
second message. -/
def c8_after : List (String × List StoredEmail) :=
  [("acme", [⟨"s1", "f1", none, "b1", "Application Rejected"⟩,
    ⟨"s2", "f2", none, "b2", "Error"⟩])]

/-- what the review session may do to one message: every field except
the category is untouched, and the category is either kept or
overwritten with one of the five offerable values. -/
def review_frame_ok (before after : StoredEmail) : Prop :=
  after.subject = before.subject ∧ after.sender = before.sender ∧
  after.date = before.date ∧ after.body = before.body ∧
  (after.category = before.category ∨ after.category ∈ review_categories)

/-- every outcome of the keyword rules is one of the five offerable
categories; in particular the rules never produce Error. -/
theorem categorize_email_cases (body company : String) :
    categorize_email body company = "Application Submitted" ∨
    categorize_email body company = "Interview Request" ∨
    categorize_email body company = "Application Rejected" ∨
    categorize_email body company = "Application Related" ∨
    categorize_email body company = "Other" := by
  simp only [categorize_email]
  split_ifs <;> simp

/-- the keyword rules never return the Error sentinel. -/
theorem categorize_email_ne_error (body company : String) :
    categorize_email body company ≠ "Error" := by
  rcases categorize_email_cases body company with h | h | h | h | h <;> rw [h] <;> decide

/-- C9: for every organization name, `categorize_email` applied to an
empty body returns Other, short-circuiting before any keyword rule. -/
theorem C9_empty_body_other :
    ∀ company_name : String, categorize_email "" company_name = "Other" := by
  intro company_name
  rfl

/-- C1: the rule groups of `categorize_email` are tried in the fixed
order submission, interview, rejection on the lower-cased body, and the
first matching group wins: a non-empty body containing both a
submission keyword and a rejection keyword is categorized Application
Submitted, and one containing an interview keyword and a rejection
keyword but no submission keyword is categorized Interview Request. -/
theorem C1_rule_precedence :
    ∀ body company : String, body ≠ "" →
      ((∃ kw ∈ submission_keywords, pyContains (pyLower body) kw = true) →
       (∃ kw ∈ rejection_keywords, pyContains (pyLower body) kw = true) →
       categorize_email body company = "Application Submitted") ∧
      ((∃ kw ∈ interview_keywords, pyContains (pyLower body) kw = true) →
       (∃ kw ∈ rejection_keywords, pyContains (pyLower body) kw = true) →
       (∀ kw ∈ submission_keywords, pyContains (pyLower body) kw = false) →
       categorize_email body company = "Interview Request") := by
  intro body company hne
  constructor
  · intro hsub _hrej
    have h1 : find_keyword (pyLower body) submission_keywords = true := by
      rcases hsub with ⟨kw, hkw, hc⟩
      exact List.any_eq_true.mpr ⟨kw, hkw, hc⟩
    simp [categorize_email, hne, find_keyword] at h1 ⊢
    simp [h1]
  · intro hint _hrej hnosub
    have h1 : find_keyword (pyLower body) submission_keywords = false := by
      simp only [find_keyword, List.any_eq_false]
      intro kw hkw
      simp [hnosub kw hkw]
    have h2 : find_keyword (pyLower body) interview_keywords = true := by
      rcases hint with ⟨kw, hkw, hc⟩
      exact List.any_eq_true.mpr ⟨kw, hkw, hc⟩
    simp [categorize_email, hne, h1, h2]

/-- witness for C1 at two concrete bodies: one holding a submission and
a rejection keyword, one holding an interview and a rejection keyword. -/
theorem C1_rule_precedence_witness :
    categorize_email "Your application received. Unfortunately we are slow." "Acme"
      = "Application Submitted" ∧
    categorize_email "We invite you to an interview. Unfortunately it is remote." "Acme"
      = "Interview Request" := by
  constructor
  · exact (C1_rule_precedence _ "Acme" (by decide)).1 (by decide) (by decide)
  · exact (C1_rule_precedence _ "Acme" (by decide)).2 (by decide) (by decide) (by decide)

/-- C2 (counterexample): a part that carries both a decodable
text/plain payload and a child part list is consumed by the payload
branch alone; the children are not traversed, so their contribution
(here the decoded string child) is missing from the result, contrary to
the claimed payload-plus-children behavior. -/
theorem C2_counterexample :
    process_parts [.mk "text/plain" (some "cGFyZW50")
        (some [.mk "text/plain" (some "Y2hpbGQ=") none])] = ("parent", "") ∧
    process_parts [.mk "text/plain" (some "cGFyZW50")
        (some [.mk "text/plain" (some "Y2hpbGQ=") none])] ≠ ("parentchild", "") := by
  constructor
  · rfl
  · decide

/-- C2 (amended): in `process_parts`, a node whose mime type is
text/plain (or text/html) and whose payload is present contributes only
its decoded payload; its children, present or not, are never traversed,
because the branches of the loop are mutually exclusive.  Children are
recursed into only when no payload branch fired. -/
theorem C2_payload_shadows_children :
    ∀ (data : String) (children : Option (List MessagePart)) (rest : List MessagePart),
      process_parts (.mk "text/plain" (some data) children :: rest) =
        (decodeData data ++ (process_parts rest).1, (process_parts rest).2) ∧
      process_parts (.mk "text/html" (some data) children :: rest) =
        ((process_parts rest).1, decodeData data ++ (process_parts rest).2) := by
  intro data children rest
  exact ⟨rfl, rfl⟩

/-- C5: the final body of a message is the plain-text buffer when that
is non-empty; otherwise the stripped HTML buffer when that is
non-empty, or the fixed placeholder when no HTML stripper is installed;
and the empty string when both buffers are empty.  The second conjunct
ties this resolution rule to `extract_email_content` for every
successfully fetched message. -/
theorem C5_body_resolution :
    (∀ (htmlStrip : Option (String → String)) (plain html : String),
      (plain ≠ "" → resolve_body htmlStrip plain html = plain) ∧
      (plain = "" → html ≠ "" → ∀ f, htmlStrip = some f →
        resolve_body htmlStrip plain html = f html) ∧
      (plain = "" → html ≠ "" → htmlStrip = none →
        resolve_body htmlStrip plain html =
          "[HTML Email - Install BeautifulSoup to extract text content]") ∧
      (plain = "" → html = "" → resolve_body htmlStrip plain html = "")) ∧
    (∀ (env : GmailEnv) (msg_id company : String) (msg : RawMessage),
      env.fetchMsg msg_id = .ok msg →
      (extract_email_content env msg_id company).body =
        resolve_body env.htmlStrip (payload_buffers msg.payload).1
          (payload_buffers msg.payload).2) := by
  constructor
  · intro htmlStrip plain html
    refine ⟨?_, ?_, ?_, ?_⟩
    · intro h; simp [resolve_body, h]
    · intro h1 h2 f hf; subst hf; simp [resolve_body, h1, h2]
    · intro h1 h2 hf; subst hf; simp [resolve_body, h1, h2]
    · intro h1 h2; simp [resolve_body, h1, h2]
  · intro env msg_id company msg h
    unfold extract_email_content
    rw [h]

/-- witness for C5: all four resolution branches at concrete buffers,
and the tie to `extract_email_content` on a concrete fetched message. -/
theorem C5_body_resolution_witness :
    resolve_body (some (fun h => "visible " ++ h)) "" "<b>x</b>" = "visible <b>x</b>" ∧
    resolve_body none "" "<b>x</b>" = "[HTML Email - Install BeautifulSoup to extract text content]" ∧
    resolve_body (some (fun h => "visible " ++ h)) "plain" "<b>x</b>" = "plain" ∧
    resolve_body none "" "" = "" ∧
    (extract_email_content
        ⟨fun _ => .ok [], fun _ => .ok ⟨[], .mk "text/plain" (some "aGVsbG8=") none⟩,
         fun _ => none, none⟩ "m1" "Acme").body = "hello" := by
  refine ⟨?_, ?_, ?_, ?_, ?_⟩
  · exact (C5_body_resolution.1 _ "" "<b>x</b>").2.1 rfl (by decide) _ rfl
  · exact (C5_body_resolution.1 _ "" "<b>x</b>").2.2.1 rfl (by decide) rfl
  · exact (C5_body_resolution.1 _ "plain" "<b>x</b>").1 (by decide)
  · exact (C5_body_resolution.1 _ "" "").2.2.2 rfl rfl
  · exact (C5_body_resolution.2 _ "m1" "Acme" ⟨[], .mk "text/plain" (some "aGVsbG8=") none⟩ rfl).trans
      (by decide)

/-- replacing a pattern that does not occur in a list leaves the list
unchanged, for any amount of fuel. -/
theorem pyReplaceFuel_of_not_contains (pat rep : List Char) :
    ∀ (fuel : Nat) (l : List Char), contains_sub l pat = false →
      pyReplaceFuel pat rep fuel l = l := by
  intro fuel
  induction fuel with
  | zero =>
    intro l _
    cases l <;> rfl
  | succ n ih =>
    intro l hl
    cases l with
    | nil => rfl
    | cons c rest =>
      have hsplit : pat.isPrefixOf (c :: rest) = false ∧ contains_sub rest pat = false := by
        simpa [contains_sub] using hl
      simp only [pyReplaceFuel]
      rw [if_neg (by simp [hsplit.1]), ih rest hsplit.2]

/-- Python `replace` with a pattern absent from the string is the
identity. -/
theorem pyReplace_of_not_contains (s old new : String)
    (h : pyContains s old = false) : pyReplace s old new = s := by
  unfold pyReplace
  rw [pyReplaceFuel_of_not_contains old.data new.data s.data.length s.data h]

/-- C3 (counterexample): the suffix list is replaced in a fixed order
in which the entry corp precedes corporation, so a name ending in
corporation is not stripped of that suffix: the residue oration is left
behind.  Moreover a whitespace-only name, which is not a suffix token,
normalizes to the empty string. -/
theorem C3_counterexample :
    clean_search_term "Acme Corporation" = "acmeoration" ∧
    clean_search_term "Acme Corporation" ≠ "acme" ∧
    clean_search_term " " = "" ∧
    " " ∉ corporate_suffixes := by
  refine ⟨by decide, by decide, by decide, by decide⟩

/-- C3 (amended): the search term is the lower-cased, trimmed company
name with each configured suffix replaced away in the fixed list order;
when the trimmed lower-cased name contains no occurrence of any
configured suffix, the replacements change nothing, and the term is
then non-empty whenever the trimmed lower-cased name is.  (A name
ending in corporation is instead mangled to a residue, and a
whitespace-only or empty name yields an empty term, as the
counterexample shows.) -/
theorem C3_normalization_amended :
    ∀ company : String,
      (∀ suffix ∈ corporate_suffixes, pyContains (pyStrip (pyLower company)) suffix = false) →
      clean_search_term company = pyStrip (pyLower company) ∧
      (pyStrip (pyLower company) ≠ "" → clean_search_term company ≠ "") := by
  intro company h
  have e1 := pyReplace_of_not_contains (pyStrip (pyLower company)) " inc" "" (h " inc" (by decide))
  have e2 := pyReplace_of_not_contains (pyStrip (pyLower company)) " llc" "" (h " llc" (by decide))
  have e3 := pyReplace_of_not_contains (pyStrip (pyLower company)) " corp" "" (h " corp" (by decide))
  have e4 := pyReplace_of_not_contains (pyStrip (pyLower company)) " corporation" ""
    (h " corporation" (by decide))
  have e5 := pyReplace_of_not_contains (pyStrip (pyLower company)) " ltd" "" (h " ltd" (by decide))
  have e6 := pyReplace_of_not_contains (pyStrip (pyLower company)) " limited" ""
    (h " limited" (by decide))
  have e7 := pyReplace_of_not_contains (pyStrip (pyLower company)) " group" "" (h " group" (by decide))
  have hmain : clean_search_term company = pyStrip (pyLower company) := by
    simp only [clean_search_term, corporate_suffixes, List.foldl]
    rw [e1, e2, e3, e4, e5, e6, e7]
  exact ⟨hmain, fun hne => hmain ▸ hne⟩

/-- witness for C3 at a suffix-free company name. -/
theorem C3_normalization_amended_witness :
    clean_search_term "Siemens" = "siemens" ∧ clean_search_term "Siemens" ≠ "" := by
  have h := C3_normalization_amended "Siemens" (by decide)
  exact ⟨h.1.trans (by decide), h.2 (by decide)⟩

/-- the primary and the fallback query are never the same string. -/
theorem primary_ne_fallback (term date_str : String) :
    primary_query term date_str ≠ fallback_query term date_str := by
  intro h
  have h2 : (primary_query term date_str).length = (fallback_query term date_str).length := by
    rw [h]
  have hf : ("from:*" : String).length = 6 := rfl
  have hs : ("subject:*" : String).length = 9 := rfl
  simp only [primary_query, fallback_query, String.length_append, hf, hs] at h2
  omega

/-- C4: for every search backend and organization, the fallback
subject query is issued if and only if the primary from query returned
an empty id list; a non-empty primary result suppresses the fallback
and supplies the message ids; an empty primary result leads to exactly
the two queries, with the same date bound, the fallback outcome
supplying the ids; and every issued query is one of the two fixed
query strings, never an OR combination. -/
theorem C4_fallback :
    ∀ (search : String → Except String (List String)) (term date_str : String),
      (fallback_query term date_str ∈ (locate_messages search term date_str).1 ↔
        search (primary_query term date_str) = .ok []) ∧
      (∀ ids, search (primary_query term date_str) = .ok ids → ids ≠ [] →
        (locate_messages search term date_str).1 = [primary_query term date_str] ∧
        (locate_messages search term date_str).2 = .ok ids) ∧
      (search (primary_query term date_str) = .ok [] →
        (locate_messages search term date_str).1 =
          [primary_query term date_str, fallback_query term date_str] ∧
        (locate_messages search term date_str).2 =
          search (fallback_query term date_str)) ∧
      (∀ q ∈ (locate_messages search term date_str).1,
        q = primary_query term date_str ∨ q = fallback_query term date_str) := by
  intro search term date_str
  rcases hq : search (primary_query term date_str) with e | ids
  · refine ⟨?_, ?_, ?_, ?_⟩
    · simp only [locate_messages, hq, List.mem_singleton]
      constructor
      · intro hmem
        exact absurd hmem.symm (primary_ne_fallback term date_str)
      · intro hok
        exact Except.noConfusion hok
    · intro ids2 hids2
      exact Except.noConfusion hids2
    · intro hok
      exact Except.noConfusion hok
    · intro q hqm
      simp only [locate_messages, hq, List.mem_singleton] at hqm
      exact Or.inl hqm
  · by_cases hids : ids = []
    · subst hids
      refine ⟨?_, ?_, ?_, ?_⟩
      · simp [locate_messages, hq]
      · intro ids2 hids2 hne
        injection hids2 with h3
        exact absurd h3.symm hne
      · intro _
        simp [locate_messages, hq]
      · intro q hqm
        simp only [locate_messages, hq] at hqm
        simpa using hqm
    · refine ⟨?_, ?_, ?_, ?_⟩
      · simp only [locate_messages, hq]
        rw [if_pos hids]
        simp only [List.mem_singleton]
        constructor
        · intro hmem
          exact absurd hmem.symm (primary_ne_fallback term date_str)
        · intro hok
          injection hok with h3
          exact absurd h3 hids
      · intro ids2 hids2 _
        injection hids2 with h3
        subst h3
        simp [locate_messages, hq, hids]
      · intro hok
        injection hok with h3
        exact absurd h3 hids
      · intro q hqm
        simp only [locate_messages, hq] at hqm
        rw [if_pos hids] at hqm
        simp only [List.mem_singleton] at hqm
        exact Or.inl hqm

/-- witness for C4: with an empty primary result both queries are
issued in order and the fallback result supplies the ids. -/
theorem C4_fallback_witness :
    (locate_messages search_no_primary "acme" "2025/01/01").1 =
      [primary_query "acme" "2025/01/01", fallback_query "acme" "2025/01/01"] ∧
    (locate_messages search_no_primary "acme" "2025/01/01").2 = .ok ["m7"] := by
  have h := (C4_fallback search_no_primary "acme" "2025/01/01").2.2.1 (by rfl)
  exact ⟨h.1, h.2.trans (by rfl)⟩

/-- an entry of the result mapping comes from a successful, non-empty
id search, enriching the first five located ids. -/
theorem check_one_company_shape (env : GmailEnv) (date_str company : String)
    (details : List StoredEmail)
    (h : check_one_company env date_str company = some details) :
    ∃ ids, (locate_messages env.search (clean_search_term company) date_str).2 = .ok ids ∧
      ids ≠ [] ∧ details = (ids.take 5).map (fun msg_id =>
        store_email (extract_email_content env msg_id company)) := by
  unfold check_one_company at h
  rcases hr : (locate_messages env.search (clean_search_term company) date_str).2 with e | ids
  · rw [hr] at h
    cases h
  · rw [hr] at h
    dsimp only at h
    by_cases hids : ids = []
    · rw [if_pos hids] at h
      cases h
    · rw [if_neg hids] at h
      injection h with h2
      exact ⟨ids, rfl, hids, h2.symm⟩

/-- a successful, non-empty id search always produces an entry. -/
theorem check_one_company_of_found (env : GmailEnv) (date_str company : String)
    (ids : List String)
    (h : (locate_messages env.search (clean_search_term company) date_str).2 = .ok ids)
    (hne : ids ≠ []) :
    check_one_company env date_str company = some ((ids.take 5).map (fun msg_id =>
      store_email (extract_email_content env msg_id company))) := by
  unfold check_one_company
  rw [h]
  dsimp only
  rw [if_neg hne]

/-- C6: an enriched message carries the Error category exactly when an
exception occurred during its fetch or extraction; in that case the
record has the placeholder subject and sender, a null date, and a body
embedding the failure description; the keyword rules never return
Error; and an erroring message still occupies its slot: the entry
length only depends on the number of located ids. -/
theorem C6_error_category :
    (∀ (env : GmailEnv) (msg_id company : String),
      ((extract_email_content env msg_id company).category = "Error" ↔
        ∃ e, env.fetchMsg msg_id = .error e)) ∧
    (∀ (env : GmailEnv) (msg_id company e : String),
      env.fetchMsg msg_id = .error e →
      extract_email_content env msg_id company =
        { subject := "Error retrieving subject", sender := "Error retrieving sender",
          date := none, body := "Error retrieving body: " ++ e, html := "",
          category := "Error" }) ∧
    (∀ body company : String, categorize_email body company ≠ "Error") ∧
    (∀ (env : GmailEnv) (date_str company : String) (ids : List String),
      (locate_messages env.search (clean_search_term company) date_str).2 = .ok ids →
      ids ≠ [] →
      (check_one_company env date_str company).isSome = true ∧
      ((check_one_company env date_str company).getD []).length = (ids.take 5).length) := by
  refine ⟨?_, ?_, ?_, ?_⟩
  · intro env msg_id company
    rcases h : env.fetchMsg msg_id with e | msg
    · simp [extract_email_content, h]
    · simp [extract_email_content, h, categorize_email_ne_error]
  · intro env msg_id company e h
    unfold extract_email_content
    rw [h]
  · exact categorize_email_ne_error
  · intro env date_str company ids h hne
    rw [check_one_company_of_found env date_str company ids h hne]
    simp

/-- witness for C6 on a concrete failing fetch. -/
theorem C6_error_category_witness :
    extract_email_content env_fetch_fail "m1" "acme" =
      { subject := "Error retrieving subject", sender := "Error retrieving sender",
        date := none, body := "Error retrieving body: boom", html := "",
        category := "Error" } ∧
    categorize_email "hello" "acme" ≠ "Error" ∧
    (check_one_company env_fetch_fail "2025/01/01" "acme").isSome = true ∧
    ((check_one_company env_fetch_fail "2025/01/01" "acme").getD []).length =
      ((["m1", "m2", "m3", "m4", "m5", "m6"] : List String).take 5).length := by
  refine ⟨?_, ?_, ?_⟩
  · exact C6_error_category.2.1 env_fetch_fail "m1" "acme" "boom" rfl
  · exact C6_error_category.2.2.1 "hello" "acme"
  · exact C6_error_category.2.2.2 env_fetch_fail "2025/01/01" "acme"
      ["m1", "m2", "m3", "m4", "m5", "m6"] (by rfl) (by decide)

/-- C7: the result mapping has an entry for an organization exactly
when its search, primary or fallback, found at least one message id,
and every entry holds between one and five enriched messages, however
many ids the search returned. -/
theorem C7_result_mapping :
    ∀ (env : GmailEnv) (date_str : String) (companies : List String) (company : String),
      ((∃ details, (company, details) ∈ check_emails_for_companies env date_str companies) ↔
        (company ∈ companies ∧ ∃ ids,
          (locate_messages env.search (clean_search_term company) date_str).2 = .ok ids ∧
          ids ≠ [])) ∧
      (∀ entry ∈ check_emails_for_companies env date_str companies,
        1 ≤ entry.2.length ∧ entry.2.length ≤ 5) := by
  intro env date_str companies company
  constructor
  · constructor
    · rintro ⟨details, hmem⟩
      unfold check_emails_for_companies at hmem
      rw [List.mem_filterMap] at hmem
      obtain ⟨a, ha, hfa⟩ := hmem
      rcases hco : check_one_company env date_str a with _ | d
      · rw [hco] at hfa
        cases hfa
      · rw [hco] at hfa
        simp only [Option.map_some', Option.some.injEq, Prod.mk.injEq] at hfa
        obtain ⟨hac, _⟩ := hfa
        subst hac
        obtain ⟨ids, h1, h2, _⟩ := check_one_company_shape env date_str a d hco
        exact ⟨ha, ids, h1, h2⟩
    · rintro ⟨hcm, ids, h1, h2⟩
      refine ⟨(ids.take 5).map (fun msg_id =>
        store_email (extract_email_content env msg_id company)), ?_⟩
      unfold check_emails_for_companies
      rw [List.mem_filterMap]
      refine ⟨company, hcm, ?_⟩
      rw [check_one_company_of_found env date_str company ids h1 h2]
      rfl
  · intro entry hentry
    unfold check_emails_for_companies at hentry
    rw [List.mem_filterMap] at hentry
    obtain ⟨a, _, hfa⟩ := hentry
    rcases hco : check_one_company env date_str a with _ | d
    · rw [hco] at hfa
      cases hfa
    · rw [hco] at hfa
      simp only [Option.map_some', Option.some.injEq] at hfa
      obtain ⟨ids, _, h2, h3⟩ := check_one_company_shape env date_str a d hco
      have hlen : entry.2.length = min 5 ids.length := by
        rw [← hfa, h3]
        simp [List.length_take]
      have hpos : 0 < ids.length := List.length_pos.mpr h2
      omega

/-- witness for C7: a six-id search yields an entry of exactly five
messages, within the claimed bounds. -/
theorem C7_result_mapping_witness :
    1 ≤ c7_entry.2.length ∧ c7_entry.2.length ≤ 5 :=
  (C7_result_mapping env_fetch_fail "2025/01/01" ["acme", "beta"] "acme").2
    c7_entry (by decide)

/-- a category selected in the review menu is always one of the five
offerable values. -/
theorem pick_category_loop_mem :
    ∀ (inputs : List String) (cat : String) (rest : List String),
      pick_category_loop inputs = .ok (cat, rest) → cat ∈ review_categories := by
  intro inputs
  induction inputs with
  | nil =>
    intro cat rest h
    exact Except.noConfusion h
  | cons tok rest2 ih =>
    intro cat rest h
    unfold pick_category_loop at h
    rcases hp : pyToInt tok with _ | n
    · rw [hp] at h
      exact ih cat rest h
    · rw [hp] at h
      dsimp only at h
      by_cases hr : 1 ≤ n ∧ n ≤ (review_categories.length : Int)
      · rw [if_pos hr] at h
        injection h with h2
        rw [Prod.mk.injEq] at h2
        obtain ⟨hcat, -⟩ := h2
        rw [← hcat]
        have hlen : (review_categories.length : Int) = 5 := by decide
        rw [hlen] at hr
        have h5 : (n - 1).toNat = 0 ∨ (n - 1).toNat = 1 ∨ (n - 1).toNat = 2 ∨
            (n - 1).toNat = 3 ∨ (n - 1).toNat = 4 := by omega
        rcases h5 with h5 | h5 | h5 | h5 | h5 <;> rw [h5] <;> decide
      · rw [if_neg hr] at h
        exact ih cat rest h

/-- one review round keeps every field of a message except possibly the
category, which it can only overwrite with an offerable value. -/
theorem review_email_loop_frame :
    ∀ (inputs : List String) (e e2 : StoredEmail) (rest : List String),
      review_email_loop e inputs = .ok (e2, rest) → review_frame_ok e e2 := by
  intro inputs
  induction inputs with
  | nil =>
    intro e e2 rest h
    exact Except.noConfusion h
  | cons tok rest2 ih =>
    intro e e2 rest h
    unfold review_email_loop at h
    by_cases h1 : pyLower (pyStrip tok) = "" ∨ pyLower (pyStrip tok) = "y"
    · rw [if_pos h1] at h
      injection h with h2
      rw [Prod.mk.injEq] at h2
      obtain ⟨he, -⟩ := h2
      subst he
      exact ⟨rfl, rfl, rfl, rfl, Or.inl rfl⟩
    · rw [if_neg h1] at h
      by_cases h2 : pyLower (pyStrip tok) = "n"
      · rw [if_pos h2] at h
        rcases hp : pick_category_loop rest2 with err | ⟨cat, rest3⟩
        · rw [hp] at h
          exact Except.noConfusion h
        · rw [hp] at h
          dsimp only at h
          injection h with h3
          rw [Prod.mk.injEq] at h3
          obtain ⟨he, -⟩ := h3
          subst he
          exact ⟨rfl, rfl, rfl, rfl,
            Or.inr (pick_category_loop_mem rest2 cat rest3 hp)⟩
      · rw [if_neg h2] at h
        exact ih e e2 rest h

/-- reviewing a list of messages relates input and output pointwise by
the review frame. -/
theorem review_emails_frame :
    ∀ (emails : List StoredEmail) (inputs : List String) (out : List StoredEmail)
      (leftover : List String),
      review_emails emails inputs = .ok (out, leftover) →
      List.Forall₂ review_frame_ok emails out := by
  intro emails
  induction emails with
  | nil =>
    intro inputs out leftover h
    unfold review_emails at h
    injection h with h2
    rw [Prod.mk.injEq] at h2
    rw [← h2.1]
    exact List.Forall₂.nil
  | cons e es ih =>
    intro inputs out leftover h
    unfold review_emails at h
    rcases h1 : review_email_loop e inputs with err | ⟨e2, inputs2⟩
    · rw [h1] at h
      exact Except.noConfusion h
    · rw [h1] at h
      dsimp only at h
      rcases h2 : review_emails es inputs2 with err | ⟨es2, inputs3⟩
      · rw [h2] at h
        exact Except.noConfusion h
      · rw [h2] at h
        dsimp only at h
        injection h with h3
        rw [Prod.mk.injEq] at h3
        rw [← h3.1]
        exact List.Forall₂.cons (review_email_loop_frame inputs e e2 inputs2 h1)
          (ih inputs2 es2 inputs3 h2)

/-- C8: a completed manual review changes at most the category field of
each message; the organizations, the number and order of the messages
per organization, and every other field are unchanged, and every
written category is one of the five offerable values, never Error. -/
theorem C8_review_frame :
    ∀ (company_emails : List (String × List StoredEmail)) (inputs : List String)
      (reviewed : List (String × List StoredEmail)) (leftover : List String),
      manual_category_review company_emails inputs = .ok (reviewed, leftover) →
      List.Forall₂ (fun before after =>
        before.1 = after.1 ∧ List.Forall₂ review_frame_ok before.2 after.2)
        company_emails reviewed := by
  intro company_emails
  induction company_emails with
  | nil =>
    intro inputs reviewed leftover h
    unfold manual_category_review at h
    injection h with h2
    rw [Prod.mk.injEq] at h2
    rw [← h2.1]
    exact List.Forall₂.nil
  | cons p rest ih =>
    obtain ⟨company, emails⟩ := p
    intro inputs reviewed leftover h
    unfold manual_category_review at h
    rcases h1 : review_emails emails inputs with err | ⟨emails2, inputs2⟩
    · rw [h1] at h
      exact Except.noConfusion h
    · rw [h1] at h
      dsimp only at h
      rcases h2 : manual_category_review rest inputs2 with err | ⟨rest2, inputs3⟩
      · rw [h2] at h
        exact Except.noConfusion h
      · rw [h2] at h
        dsimp only at h
        injection h with h3
        rw [Prod.mk.injEq] at h3
        rw [← h3.1]
        exact List.Forall₂.cons ⟨rfl, review_emails_frame emails inputs emails2 inputs2 h1⟩
          (ih inputs2 rest2 inputs3 h2)

/-- witness for C8 on a concrete operator session. -/
theorem C8_review_frame_witness :
    List.Forall₂ (fun before after =>
      before.1 = after.1 ∧ List.Forall₂ review_frame_ok before.2 after.2)
      c8_before c8_after :=
  C8_review_frame c8_before ["n", "2", "y"] c8_after [] (by rfl)

/-- the effect of one counter update on a lookup: the bumped key reads
one more than before (a fresh key reads 1), every other key is
untouched. -/
theorem lookup_bump (counts : List (String × Nat)) (c c2 : String) :
    lookup_count (bump_count counts c) c2 =
      if c2 = c then some ((lookup_count counts c).getD 0 + 1)
      else lookup_count counts c2 := by
  induction counts with
  | nil =>
    by_cases h : c2 = c
    · subst h
      simp [bump_count, lookup_count]
    · simp [bump_count, lookup_count, h]
      exact fun hh => h hh.symm
  | cons p rest ih =>
    by_cases h1 : p.1 = c
    · by_cases h2 : c2 = c
      · subst h2
        simp [bump_count, lookup_count, h1]
      · have hp2 : ¬ p.1 = c2 := by
          rw [h1]
          exact fun hh => h2 hh.symm
        have hc2 : ¬ c = c2 := fun hh => h2 hh.symm
        simp [bump_count, lookup_count, h1, h2, hp2, hc2]
    · by_cases h2 : p.1 = c2
      · have h3 : ¬ c2 = c := fun hh => h1 (h2.trans hh)
        simp [bump_count, lookup_count, h1, h2, h3]
      · simp [bump_count, lookup_count, h1, h2, ih]

/-- one counter update adds exactly one to the total. -/
theorem total_bump (counts : List (String × Nat)) (c : String) :
    total_count (bump_count counts c) = total_count counts + 1 := by
  induction counts with
  | nil => rfl
  | cons p rest ih =>
    by_cases h : p.1 = c
    · simp only [bump_count, if_pos h]
      simp only [total_count, List.map_cons, List.sum_cons]
      omega
    · simp only [bump_count, if_neg h]
      simp only [total_count, List.map_cons, List.sum_cons] at ih ⊢
      omega

/-- folding counter updates over a category list: each key ends up
reading its old value plus the number of occurrences, keys absent from
both the table and the list stay absent. -/
theorem lookup_foldl_bump (cats : List String) :
    ∀ (counts : List (String × Nat)) (c : String),
      lookup_count (cats.foldl bump_count counts) c =
        match lookup_count counts c with
        | some v => some (v + cats.count c)
        | none => if c ∈ cats then some (cats.count c) else none := by
  induction cats with
  | nil =>
    intro counts c
    simp only [List.foldl_nil, List.count_nil, List.not_mem_nil, if_false]
    cases lookup_count counts c <;> simp
  | cons r rest ih =>
    intro counts c
    simp only [List.foldl_cons]
    rw [ih (bump_count counts r) c, lookup_bump]
    by_cases h : c = r
    · subst h
      simp only [if_pos rfl, List.count_cons_self]
      cases hl : lookup_count counts c <;> simp [List.mem_cons] <;> omega
    · simp only [if_neg h, List.count_cons_of_ne h]
      cases hl : lookup_count counts c
      · by_cases hm : c ∈ rest <;> simp [List.mem_cons, h, hm]
      · simp

/-- folding counter updates adds the list length to the total. -/
theorem total_foldl_bump (cats : List String) :
    ∀ counts : List (String × Nat),
      total_count (cats.foldl bump_count counts) = total_count counts + cats.length := by
  induction cats with
  | nil =>
    intro counts
    simp [List.foldl_nil]
  | cons r rest ih =>
    intro counts
    simp only [List.foldl_cons, List.length_cons]
    rw [ih (bump_count counts r), total_bump]
    omega

/-- the summary fold is the fold of the resolved category values. -/
theorem count_categories_eq_foldl (cats : List (Option String)) :
    count_categories cats =
      (resolved_categories cats).foldl bump_count initial_category_counts := by
  unfold count_categories resolved_categories
  rw [List.foldl_map]

/-- lookups in the initial counter table: the six fixed keys read 0,
all other keys are absent. -/
theorem lookup_initial (c : String) :
    lookup_count initial_category_counts c =
      if c ∈ initial_category_counts.map Prod.fst then some 0 else none := by
  simp only [initial_category_counts, List.map_cons, List.map_nil, lookup_count,
    List.mem_cons, List.not_mem_nil, or_false]
  split_ifs <;> simp_all [eq_comm]

/-- C10: the category summary of `print_results` counts every message
of the result set exactly once: the totals add up to the number of
messages; a category string outside the six fixed keys gets its own
counter, initialized at first sight and equal to its number of
occurrences; a message whose record lacks the category key is counted
as Other; and no other keys appear. -/
theorem C10_category_counts :
    (∀ cats : List (Option String),
      total_count (count_categories cats) = cats.length) ∧
    (∀ (cats : List (Option String)) (c : String),
      lookup_count (count_categories cats) c =
        if c ∈ initial_category_counts.map Prod.fst ∨ c ∈ resolved_categories cats
        then some ((resolved_categories cats).count c) else none) ∧
    (∀ company_emails : List (String × List StoredEmail),
      total_count (summary_counts company_emails) =
        ((company_emails.map Prod.snd).flatten).length) := by
  have htotal : ∀ cats : List (Option String),
      total_count (count_categories cats) = cats.length := by
    intro cats
    rw [count_categories_eq_foldl, total_foldl_bump]
    have hz : total_count initial_category_counts = 0 := rfl
    rw [hz]
    simp [resolved_categories]
  refine ⟨htotal, ?_, ?_⟩
  · intro cats c
    rw [count_categories_eq_foldl, lookup_foldl_bump, lookup_initial]
    by_cases h1 : c ∈ initial_category_counts.map Prod.fst
    · rw [if_pos h1]
      dsimp only
      rw [if_pos (Or.inl h1)]
      simp
    · rw [if_neg h1]
      dsimp only
      by_cases h2 : c ∈ resolved_categories cats
      · rw [if_pos h2, if_pos (Or.inr h2)]
      · rw [if_neg h2, if_neg (by rintro (h | h) <;> [exact h1 h; exact h2 h])]
  · intro company_emails
    unfold summary_counts
    rw [htotal]
    exact List.length_map _ _
